import Mathlib

/-!
A verification development for `Sources/CFFmpegCLI/ffmpeg_wrapper.c` of
SwiftFFmpeg-iOS.  The file is a re-entrant execution shim around two external
entry points (`ffmpeg_main`, `ffprobe_main`): it bridges the wrapped
library's logging into a stored listener, performs one-time logging setup,
resets tool-global state before every invocation, and optionally captures
stdout/stderr through a pipe into a caller-supplied buffer.

Embedding notes.
* The wrapped entry points, `ffmpeg_reset`, `set_library_program_name`,
  `av_log_set_callback` and `av_log_set_level` are external symbols; calls to
  them are recorded as events (`Ev`), the entry points additionally behave as
  oracles (`MainOut`) fixing their exit code and the bytes they write to the
  process's fds 1 and 2.
* The OS descriptor machinery (`pipe`, `dup`, `dup2`, `close`, `read`) is a
  small state machine over a descriptor table with a finite limit, so that
  allocation failures (`pipe` or `dup` returning `-1`) are representable.
* C buffers are `Nat → Nat` stores updated pointwise; `char *` arguments that
  may be `NULL` are `Option` values; `size_t` is `Nat`; `int` is `Int`.
* The printf rendering inside `vsnprintf` belongs to libc, so the fully
  rendered text is a parameter; the model keeps the bounded copy and the
  null-termination that the wrapper itself is responsible for.
* stdio flushing (`fflush`) is not modelled: writes are unbuffered here.
-/

namespace CFFmpegCLI

/-- Pointwise update of a `Nat`-indexed store (an in-place assignment). -/
def updF {α : Type} (f : Nat → α) (i : Nat) (v : α) : Nat → α :=
  fun j => if j = i then v else f j

/-- Copy the byte list `bs` into `buf` starting at index `i`, one byte per
index (the effect of `read(2)` or `memcpy` landing in a C buffer). -/
def writeBytes : (Nat → Nat) → Nat → List Nat → (Nat → Nat)
  | buf, _, [] => buf
  | buf, i, c :: cs => writeBytes (updF buf i c) (i + 1) cs

/-- Which wrapped entry point a public operation dispatches to. -/
inductive Tool where
  | ffmpeg
  | ffprobe
deriving DecidableEq

/-- Oracle for one call of a wrapped entry point: its exit code and the bytes
it writes to the process's stdout (fd 1) and stderr (fd 2).  The entry points
live outside this repository, so their behaviour is a parameter. -/
structure MainOut where
  exit : Int
  out : List Nat
  err : List Nat

/-- What a descriptor designates: a pre-existing OS target (`real n`) or one
end of a pipe created during the call. -/
inductive Target where
  | real (n : Nat)
  | pipeR (id : Nat)
  | pipeW (id : Nat)
deriving DecidableEq

/-- OS state visible to the wrapper: the descriptor table, the limit on open
descriptors, the bytes buffered in each pipe, the bytes sunk at each real
target, and a counter of pipes created so far. -/
structure Sys where
  fd : Nat → Option Target
  limit : Nat
  pipeData : Nat → List Nat
  realData : Nat → List Nat
  nextPipe : Nat

/-- Lowest free descriptor below the bound (POSIX allocates lowest-first);
`none` models exhaustion of the table. -/
def allocFd (f : Nat → Option Target) : Nat → Option Nat
  | 0 => none
  | n + 1 =>
    match allocFd f n with
    | some i => some i
    | none =>
      match f n with
      | none => some n
      | some _ => none

/-- Number of free descriptor slots below the bound. -/
def freeCnt (f : Nat → Option Target) : Nat → Nat
  | 0 => 0
  | n + 1 => freeCnt f n + (match f n with | none => 1 | some _ => 0)

/-- `pipe(pipefd)` (source line 105): allocates the read end, then the write
end; returns `none` (the `< 0` branch) and leaves the state unchanged when
two descriptors cannot be allocated.  On success returns the new state, the
read fd, the write fd and the pipe's id. -/
def pipeSys (s : Sys) : Option (Sys × Nat × Nat × Nat) :=
  match allocFd s.fd s.limit with
  | none => none
  | some r =>
    let f1 := updF s.fd r (some (Target.pipeR s.nextPipe))
    match allocFd f1 s.limit with
    | none => none
    | some w =>
      some ({ s with
                fd := updF f1 w (some (Target.pipeW s.nextPipe)),
                pipeData := updF s.pipeData s.nextPipe [],
                nextPipe := s.nextPipe + 1 },
            r, w, s.nextPipe)

/-- `dup(src)` (lines 110-111): duplicates a descriptor onto the lowest free
slot, returning `-1` when `src` is invalid or the table is exhausted. -/
def dupSys (s : Sys) (src : Nat) : Int × Sys :=
  match s.fd src with
  | none => (-1, s)
  | some t =>
    match allocFd s.fd s.limit with
    | none => (-1, s)
    | some a => (Int.ofNat a, { s with fd := updF s.fd a (some t) })

/-- `dup2(src, dst)` (lines 114-115 and 127-128): rebinds `dst` to the target
of `src`; fails (no effect) when `src` is negative or closed — exactly what
happens when a failed `dup` handed back `-1`. -/
def dup2Sys (s : Sys) (src : Int) (dst : Nat) : Sys :=
  match src with
  | Int.ofNat o =>
    match s.fd o with
    | none => s
    | some t => { s with fd := updF s.fd dst (some t) }
  | Int.negSucc _ => s

/-- `close(fd)`: frees the slot; closing `-1` or an already closed fd is a
no-op (the C code ignores the error). -/
def closeSys (s : Sys) (fd : Int) : Sys :=
  match fd with
  | Int.ofNat n =>
    match s.fd n with
    | none => s
    | some _ => { s with fd := updF s.fd n none }
  | Int.negSucc _ => s

/-- A `write(2)` of `bs` through descriptor `k` (the entry point's stdout or
stderr traffic): appends to whatever the descriptor designates; writes
through a closed descriptor or a read end are lost, as the tool never checks
them. -/
def writeFd (s : Sys) (k : Nat) (bs : List Nat) : Sys :=
  match s.fd k with
  | some (Target.pipeW id) =>
    { s with pipeData := updF s.pipeData id (s.pipeData id ++ bs) }
  | some (Target.real n) =>
    { s with realData := updF s.realData n (s.realData n ++ bs) }
  | _ => s

/-- The wrapper's file-scope globals (`g_swift_log_func`, `g_log_level`,
`g_logging_initialized`, lines 31-65) together with the slice of the wrapped
library's state this file mutates: whether the bridge callback is installed,
and the last level this layer passed to `av_log_set_level` (`none` while the
layer has never set it — the library's own startup value is outside the
repository). -/
structure GState where
  g_swift_log_func : Option Nat
  g_log_level : Int
  g_logging_initialized : Bool
  av_cb_installed : Bool
  av_level : Option Int
deriving DecidableEq

/-- Calls made into the wrapped library, recorded in order. -/
inductive Ev where
  | avSetCallback
  | avSetLevel (l : Int)
  | reset
  | setProgName (name : String)
  | callMain (t : Tool) (argv : List String)
deriving DecidableEq

/-- `av_log_set_callback(ffmpeg_log_callback)` as it affects library state. -/
def av_log_set_callback (st : GState) : GState :=
  { st with av_cb_installed := true }

/-- `av_log_set_level(level)` as it affects library state. -/
def av_log_set_level (level : Int) (st : GState) : GState :=
  { st with av_level := some level }

/-- `ffmpeg_set_swift_logger` (line 36): stores the listener; a bare number
models the function pointer, `none` models `NULL`. -/
def ffmpeg_set_swift_logger (func : Option Nat) (st : GState) : GState :=
  { st with g_swift_log_func := func }

/-- `ffmpeg_set_log_level` (line 40): stores the level and forwards it to the
library immediately. -/
def ffmpeg_set_log_level (level : Int) (st : GState) : GState × List Ev :=
  (av_log_set_level level { st with g_log_level := level },
   [Ev.avSetLevel level])

/-- `vsnprintf(buffer, cap, fmt, vl)` over already-rendered text: copies at
most `cap - 1` bytes and writes the terminating `0` after them. -/
def vsnprintf (buf : Nat → Nat) (cap : Nat) (rendered : List Nat) :
    Nat → Nat :=
  updF (writeBytes buf 0 (rendered.take (cap - 1)))
    (min rendered.length (cap - 1)) 0

/-- `ffmpeg_log_callback` (line 47): when no listener is stored the record is
dropped and nothing further runs; otherwise the text is rendered into the
1024-byte stack buffer (`stackBuf` is its arbitrary initial contents),
`buffer[1023] = 0` is forced (line 58), and the listener is invoked once with
the level and the buffer.  The returned value is that single invocation. -/
def ffmpeg_log_callback (stackBuf : Nat → Nat) (st : GState) (level : Int)
    (rendered : List Nat) : Option (Nat × Int × (Nat → Nat)) :=
  match st.g_swift_log_func with
  | none => none
  | some f =>
    let buffer := vsnprintf stackBuf 1024 rendered
    let buffer := updF buffer 1023 0
    some (f, level, buffer)

/-- `ffmpeg_setup_logging_if_needed` (line 67): a process-wide one-time flag
guards installing the callback and the stored level into the library. -/
def ffmpeg_setup_logging_if_needed (st : GState) : GState × List Ev :=
  if st.g_logging_initialized then (st, [])
  else
    (av_log_set_level st.g_log_level
        (av_log_set_callback { st with g_logging_initialized := true }),
     [Ev.avSetCallback, Ev.avSetLevel st.g_log_level])

/-- The program-name string passed to `set_library_program_name`. -/
def progName : Tool → String
  | Tool.ffmpeg => "ffmpeg"
  | Tool.ffprobe => "ffprobe"

/-- Result of an uncaptured invocation: exit code, final globals, final OS
state and the library-call trace. -/
structure ExecR where
  code : Int
  g : GState
  sys : Sys
  tr : List Ev

/-- Shared body of `ffmpeg_execute` (line 79) and `ffprobe_execute`
(line 86): the two C functions are textually identical up to the entry-point
symbol and the program-name string, both abstracted by `t` and `main`. -/
def executeCore (t : Tool) (main : List String → MainOut)
    (argv : List String) (st : GState) (s : Sys) : ExecR :=
  let su := ffmpeg_setup_logging_if_needed st
  let m := main argv
  let s1 := writeFd s 1 m.out
  let s2 := writeFd s1 2 m.err
  ⟨m.exit, su.1, s2,
   su.2 ++ [Ev.reset, Ev.setProgName (progName t), Ev.callMain t argv]⟩

/-- `ffmpeg_execute(argc, argv)` (line 79); `argv` carries the argument
vector, `ffmpeg_main` is the external entry point's oracle. -/
def ffmpeg_execute (ffmpeg_main : List String → MainOut)
    (argv : List String) (st : GState) (s : Sys) : ExecR :=
  executeCore Tool.ffmpeg ffmpeg_main argv st s

/-- `ffprobe_execute(argc, argv)` (line 86). -/
def ffprobe_execute (ffprobe_main : List String → MainOut)
    (argv : List String) (st : GState) (s : Sys) : ExecR :=
  executeCore Tool.ffprobe ffprobe_main argv st s

/-- Result of a captured invocation: as `ExecR`, plus the caller's buffer
after the call (`none` when the caller passed `NULL`). -/
structure CapResult where
  code : Int
  g : GState
  sys : Sys
  tr : List Ev
  buf : Option (Nat → Nat)

/-- Attach a buffer to an uncaptured result (the `return ffmpeg_execute(...)`
fallbacks inside the captured variants). -/
def withBuf (e : ExecR) (b : Option (Nat → Nat)) : CapResult :=
  ⟨e.code, e.g, e.sys, e.tr, b⟩

/-- Result of the drain loop: the buffer after the copies, the final
`total_read`, and the bytes left unread in the pipe. -/
structure DrainR where
  buf : Nat → Nat
  total : Nat
  rest : List Nat

/-- The `while (total_read < output_buffer_size - 1)` read loop (lines
133-139).  `sched` models the OS's choice of how many bytes each `read(2)`
delivers, capped by the request and by what the pipe holds; an exhausted
schedule or a zero delivery models `read` returning `0` or an error
(`bytes_read <= 0`), which breaks the loop. -/
def drain (sched : List Nat) (buf : Nat → Nat) (total cap : Nat)
    (avail : List Nat) : DrainR :=
  match sched with
  | [] => ⟨buf, total, avail⟩
  | k :: rest =>
    if total < cap - 1 then
      let got := min k (min (cap - 1 - total) avail.length)
      if got = 0 then ⟨buf, total, avail⟩
      else
        drain rest (writeBytes buf total (avail.take got)) (total + got) cap
          (avail.drop got)
    else ⟨buf, total, avail⟩

/-- Shared body of `ffmpeg_execute_with_output` (line 95) and
`ffprobe_execute_with_output` (line 150), which are textually identical up to
the entry point and program name.  Mirrors the C control flow: the
null/zero-capacity guard, `output_buffer[0] = '\x30'`-style init (index 0 set
to `0`), the pipe-failure fallback, redirection, the entry-point call, the
(unchecked) restoration, the drain loop, and the final null terminator. -/
def executeWithOutputCore (t : Tool) (main : List String → MainOut)
    (argv : List String) (st : GState) (s : Sys) (buf? : Option (Nat → Nat))
    (size : Nat) (sched : List Nat) : CapResult :=
  match buf?, size with
  | none, _ => withBuf (executeCore t main argv st s) none
  | some b, 0 => withBuf (executeCore t main argv st s) (some b)
  | some b, n + 1 =>
    let b0 := updF b 0 0
    match pipeSys s with
    | none => withBuf (executeCore t main argv st s) (some b0)
    | some (s1, rfd, wfd, pid) =>
      let d1 := dupSys s1 1
      let stdout_fd := d1.1
      let d2 := dupSys d1.2 2
      let stderr_fd := d2.1
      let s4 := dup2Sys d2.2 (Int.ofNat wfd) 1
      let s5 := dup2Sys s4 (Int.ofNat wfd) 2
      let s6 := closeSys s5 (Int.ofNat wfd)
      let su := ffmpeg_setup_logging_if_needed st
      let m := main argv
      let s7 := writeFd s6 1 m.out
      let s8 := writeFd s7 2 m.err
      let s9 := dup2Sys s8 stdout_fd 1
      let s10 := dup2Sys s9 stderr_fd 2
      let s11 := closeSys s10 stdout_fd
      let s12 := closeSys s11 stderr_fd
      let dr := drain sched b0 0 (n + 1) (s12.pipeData pid)
      let b2 := updF dr.buf dr.total 0
      let s13 := { s12 with pipeData := updF s12.pipeData pid dr.rest }
      let s14 := closeSys s13 (Int.ofNat rfd)
      ⟨m.exit, su.1, s14,
       su.2 ++ [Ev.reset, Ev.setProgName (progName t), Ev.callMain t argv],
       some b2⟩

/-- `ffmpeg_execute_with_output(argc, argv, output_buffer,
output_buffer_size)` (line 95). -/
def ffmpeg_execute_with_output (ffmpeg_main : List String → MainOut)
    (argv : List String) (st : GState) (s : Sys) (buf? : Option (Nat → Nat))
    (size : Nat) (sched : List Nat) : CapResult :=
  executeWithOutputCore Tool.ffmpeg ffmpeg_main argv st s buf? size sched

/-- `ffprobe_execute_with_output(argc, argv, output_buffer,
output_buffer_size)` (line 150). -/
def ffprobe_execute_with_output (ffprobe_main : List String → MainOut)
    (argv : List String) (st : GState) (s : Sys) (buf? : Option (Nat → Nat))
    (size : Nat) (sched : List Nat) : CapResult :=
  executeWithOutputCore Tool.ffprobe ffprobe_main argv st s buf? size sched

/-- A public operation of the wrapper, with everything one call needs: the
listener or level being set, or the tool, its oracle, the argument vector
and, for captured calls, the caller's buffer and the read schedule. -/
inductive Op where
  | setLogger (func : Option Nat)
  | setLevel (l : Int)
  | run (t : Tool) (main : List String → MainOut) (argv : List String)
  | runCap (t : Tool) (main : List String → MainOut) (argv : List String)
      (buf? : Option (Nat → Nat)) (size : Nat) (sched : List Nat)

/-- State after a sequence of public operations, with the concatenated
library-call trace. -/
structure SeqR where
  g : GState
  sys : Sys
  tr : List Ev

/-- One public operation. -/
def runOp (g : GState) (s : Sys) : Op → SeqR
  | Op.setLogger f => ⟨ffmpeg_set_swift_logger f g, s, []⟩
  | Op.setLevel l =>
    let r := ffmpeg_set_log_level l g
    ⟨r.1, s, r.2⟩
  | Op.run t main argv =>
    let e := executeCore t main argv g s
    ⟨e.g, e.sys, e.tr⟩
  | Op.runCap t main argv b? size sched =>
    let r := executeWithOutputCore t main argv g s b? size sched
    ⟨r.g, r.sys, r.tr⟩

/-- A sequence of public operations. -/
def runOps (g : GState) (s : Sys) : List Op → SeqR
  | [] => ⟨g, s, []⟩
  | op :: rest =>
    let r1 := runOp g s op
    let r2 := runOps r1.g r1.sys rest
    ⟨r2.g, r2.sys, r1.tr ++ r2.tr⟩

/-- The globals at process start: no listener, level 32 (line 34), logging
not yet initialized, and the library untouched by this layer. -/
def ginit : GState := ⟨none, 32, false, false, none⟩

/-- Operations that call a wrapped entry point (and hence run the one-time
setup and the reset). -/
def isEntry : Op → Bool
  | Op.run .. => true
  | Op.runCap .. => true
  | _ => false

/-- Operations that set the library's level filter, directly or by being the
first entry-point call. -/
def touches : Op → Bool
  | Op.run .. => true
  | Op.runCap .. => true
  | Op.setLevel _ => true
  | _ => false

/-- Number of `av_log_set_callback` installations in a trace. -/
def installs (tr : List Ev) : Nat :=
  tr.countP fun e => match e with | Ev.avSetCallback => true | _ => false

/-- Accumulator for the most recent level passed to
`ffmpeg_set_log_level`. -/
def levelStep (acc : Int) (op : Op) : Int :=
  match op with
  | Op.setLevel l => l
  | _ => acc

/-- The level most recently passed to the level-setting operation, or the
built-in default `32` when it never ran. -/
def lastLevel (ops : List Op) : Int :=
  ops.foldl levelStep 32

/-! ### Store and allocation lemmas -/

theorem updF_apply {α : Type} (f : Nat → α) (i : Nat) (v : α) (j : Nat) :
    updF f i v j = if j = i then v else f j := rfl

theorem updF_same {α : Type} (f : Nat → α) (i : Nat) (v : α) :
    updF f i v i = v := by simp [updF]

theorem updF_other {α : Type} (f : Nat → α) (i : Nat) (v : α) {j : Nat}
    (h : j ≠ i) : updF f i v j = f j := by simp [updF, h]

theorem writeBytes_above : ∀ (bs : List Nat) (buf : Nat → Nat) (s i : Nat),
    s + bs.length ≤ i → writeBytes buf s bs i = buf i := by
  intro bs
  induction bs with
  | nil => intro buf s i _; rfl
  | cons c cs ih =>
    intro buf s i h
    simp only [writeBytes]
    rw [ih _ _ _ (by simp at h; omega)]
    exact updF_other _ _ _ (by simp at h; omega)

theorem writeBytes_below : ∀ (bs : List Nat) (buf : Nat → Nat) (s i : Nat),
    i < s → writeBytes buf s bs i = buf i := by
  intro bs
  induction bs with
  | nil => intro buf s i _; rfl
  | cons c cs ih =>
    intro buf s i h
    simp only [writeBytes]
    rw [ih _ _ _ (by omega)]
    exact updF_other _ _ _ (by omega)

theorem writeBytes_at : ∀ (bs : List Nat) (buf : Nat → Nat) (s j : Nat),
    j < bs.length → writeBytes buf s bs (s + j) = bs.getD j 0 := by
  intro bs
  induction bs with
  | nil => intro _ _ j h; simp at h
  | cons c cs ih =>
    intro buf s j h
    simp only [writeBytes]
    match j with
    | 0 =>
      rw [writeBytes_below _ _ _ _ (by omega)]
      simp [updF]
    | j + 1 =>
      have : s + (j + 1) = (s + 1) + j := by omega
      rw [this, ih _ _ _ (by simp at h; omega)]
      rfl

theorem allocFd_spec {f : Nat → Option Target} :
    ∀ {n i : Nat}, allocFd f n = some i → i < n ∧ f i = none := by
  intro n
  induction n with
  | zero => intro i h; simp [allocFd] at h
  | succ n ih =>
    intro i h
    simp only [allocFd] at h
    rcases ha : allocFd f n with _ | j
    · rw [ha] at h
      rcases hf : f n with _ | t
      · rw [hf] at h
        cases h
        exact ⟨Nat.lt_succ_self n, hf⟩
      · rw [hf] at h; cases h
    · rw [ha] at h
      cases h
      have := ih ha
      exact ⟨Nat.lt_succ_of_lt this.1, this.2⟩

theorem allocFd_none_freeCnt {f : Nat → Option Target} :
    ∀ {n : Nat}, allocFd f n = none → freeCnt f n = 0 := by
  intro n
  induction n with
  | zero => intro _; rfl
  | succ n ih =>
    intro h
    simp only [allocFd] at h
    rcases ha : allocFd f n with _ | j
    · rw [ha] at h
      rcases hf : f n with _ | t
      · rw [hf] at h; cases h
      · simp only [freeCnt, hf, ih ha]
    · rw [ha] at h; cases h

theorem allocFd_isSome {f : Nat → Option Target} {n : Nat}
    (h : 0 < freeCnt f n) : ∃ i, allocFd f n = some i := by
  rcases ha : allocFd f n with _ | i
  · rw [allocFd_none_freeCnt ha] at h; omega
  · exact ⟨i, rfl⟩

theorem freeCnt_congr {f g : Nat → Option Target} :
    ∀ {n : Nat}, (∀ j, j < n → f j = g j) → freeCnt f n = freeCnt g n := by
  intro n
  induction n with
  | zero => intro _; rfl
  | succ n ih =>
    intro h
    simp only [freeCnt, ih fun j hj => h j (Nat.lt_succ_of_lt hj),
      h n (Nat.lt_succ_self n)]

theorem freeCnt_updF {f : Nat → Option Target} {t : Target} :
    ∀ {n i : Nat}, i < n → f i = none →
      freeCnt (updF f i (some t)) n + 1 = freeCnt f n := by
  intro n
  induction n with
  | zero => intro i h; omega
  | succ n ih =>
    intro i hi hf
    rcases Nat.lt_or_ge i n with h | h
    · have hne : n ≠ i := by omega
      simp only [freeCnt, updF_other f i (some t) hne]
      have := ih h hf
      rcases f n with _ | u
      · simp only [] at *; omega
      · simp only [] at *; omega
    · have hin : i = n := by omega
      subst hin
      simp only [freeCnt, updF_same, hf]
      have : freeCnt (updF f i (some t)) i = freeCnt f i :=
        freeCnt_congr fun j hj => updF_other f i (some t) (by omega)
      omega

/-! ### Equation lemmas for the descriptor operations -/

theorem pipeSys_eq {s : Sys} {r w : Nat}
    (hr : allocFd s.fd s.limit = some r)
    (hw : allocFd (updF s.fd r (some (Target.pipeR s.nextPipe))) s.limit
            = some w) :
    pipeSys s =
      some ({ s with
                fd := updF (updF s.fd r (some (Target.pipeR s.nextPipe))) w
                        (some (Target.pipeW s.nextPipe)),
                pipeData := updF s.pipeData s.nextPipe [],
                nextPipe := s.nextPipe + 1 },
            r, w, s.nextPipe) := by
  unfold pipeSys
  rw [hr]
  simp only []
  rw [hw]

theorem dupSys_eq {s : Sys} {src a : Nat} {t : Target}
    (ht : s.fd src = some t) (ha : allocFd s.fd s.limit = some a) :
    dupSys s src = (Int.ofNat a, { s with fd := updF s.fd a (some t) }) := by
  unfold dupSys
  rw [ht, ha]

theorem dupSys_fail {s : Sys} {src : Nat} {t : Target}
    (ht : s.fd src = some t) (ha : allocFd s.fd s.limit = none) :
    dupSys s src = (-1, s) := by
  unfold dupSys
  rw [ht, ha]

theorem dup2Sys_eq {s : Sys} {o : Nat} {t : Target} (dst : Nat)
    (h : s.fd o = some t) :
    dup2Sys s (Int.ofNat o) dst = { s with fd := updF s.fd dst (some t) } := by
  simp only [dup2Sys, h]

theorem dup2Sys_negOne (s : Sys) (dst : Nat) : dup2Sys s (-1) dst = s := rfl

theorem closeSys_eq {s : Sys} {n : Nat} {t : Target} (h : s.fd n = some t) :
    closeSys s (Int.ofNat n) = { s with fd := updF s.fd n none } := by
  simp only [closeSys, h]

theorem closeSys_negOne (s : Sys) : closeSys s (-1) = s := rfl

theorem writeFd_fd (s : Sys) (k : Nat) (bs : List Nat) :
    (writeFd s k bs).fd = s.fd := by
  unfold writeFd
  rcases h : s.fd k with _ | t
  · rfl
  · cases t <;> rfl

theorem writeFd_limit (s : Sys) (k : Nat) (bs : List Nat) :
    (writeFd s k bs).limit = s.limit := by
  unfold writeFd
  rcases h : s.fd k with _ | t
  · rfl
  · cases t <;> rfl

theorem writeFd_pipe {s : Sys} {k id : Nat} (bs : List Nat)
    (h : s.fd k = some (Target.pipeW id)) :
    writeFd s k bs
      = { s with pipeData := updF s.pipeData id (s.pipeData id ++ bs) } := by
  simp only [writeFd, h]

/-! ### Setup and entry-operation projection lemmas -/

theorem setup_flag (st : GState) :
    ((ffmpeg_setup_logging_if_needed st).1).g_logging_initialized = true := by
  unfold ffmpeg_setup_logging_if_needed
  by_cases h : st.g_logging_initialized
  · simp [h]
  · simp [h, av_log_set_level, av_log_set_callback]

theorem setup_of_initialized {st : GState}
    (h : st.g_logging_initialized = true) :
    ffmpeg_setup_logging_if_needed st = (st, []) := by
  unfold ffmpeg_setup_logging_if_needed
  simp [h]

theorem setup_of_uninitialized {st : GState}
    (h : st.g_logging_initialized = false) :
    ffmpeg_setup_logging_if_needed st =
      ({ st with g_logging_initialized := true, av_cb_installed := true,
                 av_level := some st.g_log_level },
       [Ev.avSetCallback, Ev.avSetLevel st.g_log_level]) := by
  unfold ffmpeg_setup_logging_if_needed
  simp [h, av_log_set_level, av_log_set_callback]

theorem setup_installs (st : GState) :
    installs (ffmpeg_setup_logging_if_needed st).2 =
      if st.g_logging_initialized then 0 else 1 := by
  by_cases h : st.g_logging_initialized
  · rw [setup_of_initialized h]; simp [h, installs]
  · rw [setup_of_uninitialized (by simpa using h)]
    simp [h, installs, List.countP_cons]

theorem setup_tr_no_reset (st : GState) :
    Ev.reset ∉ (ffmpeg_setup_logging_if_needed st).2 := by
  by_cases h : st.g_logging_initialized
  · rw [setup_of_initialized h]; simp
  · rw [setup_of_uninitialized (by simpa using h)]; simp

theorem setup_tr_no_callMain (st : GState) (t : Tool) (argv : List String) :
    Ev.callMain t argv ∉ (ffmpeg_setup_logging_if_needed st).2 := by
  by_cases h : st.g_logging_initialized
  · rw [setup_of_initialized h]; simp
  · rw [setup_of_uninitialized (by simpa using h)]; simp

/-- Every path of the captured variant produces the same globals and the same
library-call trace as the uncaptured variant: the one-time setup's result
followed by reset, program name and the entry-point call. -/
theorem capCore_g_tr (t : Tool) (main : List String → MainOut)
    (argv : List String) (st : GState) (s : Sys) (buf? : Option (Nat → Nat))
    (size : Nat) (sched : List Nat) :
    (executeWithOutputCore t main argv st s buf? size sched).g
        = (ffmpeg_setup_logging_if_needed st).1 ∧
    (executeWithOutputCore t main argv st s buf? size sched).tr
        = (ffmpeg_setup_logging_if_needed st).2 ++
            [Ev.reset, Ev.setProgName (progName t), Ev.callMain t argv] := by
  match buf?, size with
  | none, size => exact ⟨rfl, rfl⟩
  | some b, 0 => exact ⟨rfl, rfl⟩
  | some b, n + 1 =>
    simp only [executeWithOutputCore]
    rcases hp : pipeSys s with _ | q
    · exact ⟨rfl, rfl⟩
    · rcases q with ⟨s1, rfd, wfd, pid⟩
      exact ⟨rfl, rfl⟩

theorem execCore_g_tr (t : Tool) (main : List String → MainOut)
    (argv : List String) (st : GState) (s : Sys) :
    (executeCore t main argv st s).g = (ffmpeg_setup_logging_if_needed st).1 ∧
    (executeCore t main argv st s).tr
        = (ffmpeg_setup_logging_if_needed st).2 ++
            [Ev.reset, Ev.setProgName (progName t), Ev.callMain t argv] :=
  ⟨rfl, rfl⟩

theorem capCore_code (t : Tool) (main : List String → MainOut)
    (argv : List String) (st : GState) (s : Sys) (buf? : Option (Nat → Nat))
    (size : Nat) (sched : List Nat) :
    (executeWithOutputCore t main argv st s buf? size sched).code
      = (main argv).exit := by
  match buf?, size with
  | none, size => rfl
  | some b, 0 => rfl
  | some b, n + 1 =>
    simp only [executeWithOutputCore]
    rcases hp : pipeSys s with _ | q
    · rfl
    · rcases q with ⟨s1, rfd, wfd, pid⟩
      rfl

/-! ### Drain-loop bounds -/

theorem drain_spec : ∀ (sched : List Nat) (buf : Nat → Nat)
    (total cap : Nat) (avail : List Nat), total ≤ cap - 1 →
    total ≤ (drain sched buf total cap avail).total ∧
    (drain sched buf total cap avail).total ≤ cap - 1 ∧
    ∀ i, (drain sched buf total cap avail).total ≤ i →
      (drain sched buf total cap avail).buf i = buf i := by
  intro sched
  induction sched with
  | nil =>
    intro buf total cap avail h
    exact ⟨Nat.le_refl _, h, fun i _ => rfl⟩
  | cons k rest ih =>
    intro buf total cap avail h
    simp only [drain]
    by_cases hlt : total < cap - 1
    · simp only [hlt, if_true]
      by_cases hg : min k (min (cap - 1 - total) avail.length) = 0
      · simp only [hg, if_true]
        exact ⟨Nat.le_refl _, h, fun i _ => by trivial⟩
      · simp only [hg, if_false]
        have hgreq : min k (min (cap - 1 - total) avail.length)
            ≤ cap - 1 - total :=
          le_trans (min_le_right _ _) (min_le_left _ _)
        have hglen : min k (min (cap - 1 - total) avail.length)
            ≤ avail.length :=
          le_trans (min_le_right _ _) (min_le_right _ _)
        have h2 : total + min k (min (cap - 1 - total) avail.length)
            ≤ cap - 1 := by omega
        obtain ⟨ih1, ih2, ih3⟩ := ih
          (writeBytes buf total
            (avail.take (min k (min (cap - 1 - total) avail.length))))
          (total + min k (min (cap - 1 - total) avail.length)) cap
          (avail.drop (min k (min (cap - 1 - total) avail.length))) h2
        refine ⟨by omega, ih2, ?_⟩
        intro i hi
        rw [ih3 i hi]
        apply writeBytes_above
        have hlen : (avail.take
            (min k (min (cap - 1 - total) avail.length))).length
              = min k (min (cap - 1 - total) avail.length) := by
          rw [List.length_take]
          omega
        omega
    · simp only [hlt, if_false]
      exact ⟨Nat.le_refl _, h, fun i _ => by trivial⟩

/-! ### Descriptor restoration through the capture path -/

/-- When the pipe and both descriptor duplications succeed, the capture path
restores fds 1 and 2 to their pre-call targets and releases every descriptor
it created: the final descriptor table equals the pre-call table, on every
return path (the exit code and output of the entry point are arbitrary). -/
theorem capCore_restore (t : Tool) (main : List String → MainOut)
    (argv : List String) (st : GState) (s : Sys) (b : Nat → Nat) (n : Nat)
    (sched : List Nat) {t1 t2 : Target}
    (h1 : s.fd 1 = some t1) (h2 : s.fd 2 = some t2)
    (hfree : 4 ≤ freeCnt s.fd s.limit) :
    (executeWithOutputCore t main argv st s (some b) (n + 1) sched).sys.fd
      = s.fd := by
  obtain ⟨r, hr⟩ := allocFd_isSome (f := s.fd) (n := s.limit) (by omega)
  obtain ⟨hrlt, hrfd⟩ := allocFd_spec hr
  have h1r : (1 : Nat) ≠ r := fun h => by rw [h, hrfd] at h1; cases h1
  have h2r : (2 : Nat) ≠ r := fun h => by rw [h, hrfd] at h2; cases h2
  have hcnt1 : freeCnt (updF s.fd r (some (Target.pipeR s.nextPipe))) s.limit
      + 1 = freeCnt s.fd s.limit := freeCnt_updF hrlt hrfd
  obtain ⟨w, hw⟩ := allocFd_isSome
    (f := updF s.fd r (some (Target.pipeR s.nextPipe))) (n := s.limit)
    (by omega)
  obtain ⟨hwlt, hwfd⟩ := allocFd_spec hw
  have hwr : w ≠ r := fun h => by rw [h, updF_same] at hwfd; cases hwfd
  have hwsfd : s.fd w = none := by
    rw [updF_other _ _ _ hwr] at hwfd; exact hwfd
  have h1w : (1 : Nat) ≠ w := fun h => by rw [h, hwsfd] at h1; cases h1
  have h2w : (2 : Nat) ≠ w := fun h => by rw [h, hwsfd] at h2; cases h2
  have hpipe := pipeSys_eq hr hw
  set S1 : Sys :=
    { s with
        fd := updF (updF s.fd r (some (Target.pipeR s.nextPipe))) w
                (some (Target.pipeW s.nextPipe)),
        pipeData := updF s.pipeData s.nextPipe [],
        nextPipe := s.nextPipe + 1 } with hS1def
  have hS1fd : S1.fd = updF (updF s.fd r (some (Target.pipeR s.nextPipe))) w
      (some (Target.pipeW s.nextPipe)) := by rw [hS1def]
  have hS1lim : S1.limit = s.limit := by rw [hS1def]
  have hS1fd1 : S1.fd 1 = some t1 := by
    rw [hS1fd, updF_other _ _ _ h1w, updF_other _ _ _ h1r]; exact h1
  have hS1fd2 : S1.fd 2 = some t2 := by
    rw [hS1fd, updF_other _ _ _ h2w, updF_other _ _ _ h2r]; exact h2
  have hS1fdw : S1.fd w = some (Target.pipeW s.nextPipe) := by
    rw [hS1fd, updF_same]
  have hS1fdr : S1.fd r = some (Target.pipeR s.nextPipe) := by
    rw [hS1fd, updF_other _ _ _ (Ne.symm hwr), updF_same]
  have hcnt2 : freeCnt S1.fd s.limit + 1
      = freeCnt (updF s.fd r (some (Target.pipeR s.nextPipe))) s.limit := by
    rw [hS1fd]; exact freeCnt_updF hwlt hwfd
  obtain ⟨a, ha⟩ := allocFd_isSome (f := S1.fd) (n := s.limit) (by omega)
  obtain ⟨halt, hafd⟩ := allocFd_spec ha
  have har : a ≠ r := fun h => by rw [h, hS1fdr] at hafd; cases hafd
  have haw : a ≠ w := fun h => by rw [h, hS1fdw] at hafd; cases hafd
  have hsa : s.fd a = none := by
    have h' := hafd
    rw [hS1fd, updF_other _ _ _ haw, updF_other _ _ _ har] at h'
    exact h'
  have h1a : (1 : Nat) ≠ a := fun h => by rw [h, hsa] at h1; cases h1
  have h2a : (2 : Nat) ≠ a := fun h => by rw [h, hsa] at h2; cases h2
  have ha' : allocFd S1.fd S1.limit = some a := by rw [hS1lim]; exact ha
  have hdupa : dupSys S1 1
      = (Int.ofNat a, { S1 with fd := updF S1.fd a (some t1) }) :=
    dupSys_eq hS1fd1 ha'
  set S2 : Sys := { S1 with fd := updF S1.fd a (some t1) } with hS2def
  have hS2fd : S2.fd = updF S1.fd a (some t1) := by rw [hS2def]
  have hS2lim : S2.limit = s.limit := by rw [hS2def]
  have hS2fd2 : S2.fd 2 = some t2 := by
    rw [hS2fd, updF_other _ _ _ h2a]; exact hS1fd2
  have hS2fdw : S2.fd w = some (Target.pipeW s.nextPipe) := by
    rw [hS2fd, updF_other _ _ _ (Ne.symm haw)]; exact hS1fdw
  have hS2fda : S2.fd a = some t1 := by rw [hS2fd, updF_same]
  have hS2fdr : S2.fd r = some (Target.pipeR s.nextPipe) := by
    rw [hS2fd, updF_other _ _ _ (Ne.symm har)]; exact hS1fdr
  have hcnt3 : freeCnt S2.fd s.limit + 1 = freeCnt S1.fd s.limit := by
    rw [hS2fd]; exact freeCnt_updF halt hafd
  obtain ⟨c, hc⟩ := allocFd_isSome (f := S2.fd) (n := s.limit) (by omega)
  obtain ⟨hclt, hcfd⟩ := allocFd_spec hc
  have hcr : c ≠ r := fun h => by rw [h, hS2fdr] at hcfd; cases hcfd
  have hcw : c ≠ w := fun h => by rw [h, hS2fdw] at hcfd; cases hcfd
  have hca : c ≠ a := fun h => by rw [h, hS2fda] at hcfd; cases hcfd
  have hscfd : s.fd c = none := by
    have h' := hcfd
    rw [hS2fd, updF_other _ _ _ hca, hS1fd, updF_other _ _ _ hcw,
      updF_other _ _ _ hcr] at h'
    exact h'
  have h1c : (1 : Nat) ≠ c := fun h => by rw [h, hscfd] at h1; cases h1
  have h2c : (2 : Nat) ≠ c := fun h => by rw [h, hscfd] at h2; cases h2
  have hc' : allocFd S2.fd S2.limit = some c := by rw [hS2lim]; exact hc
  have hdupb : dupSys S2 2
      = (Int.ofNat c, { S2 with fd := updF S2.fd c (some t2) }) :=
    dupSys_eq hS2fd2 hc'
  set S3 : Sys := { S2 with fd := updF S2.fd c (some t2) } with hS3def
  have hS3fd : S3.fd = updF S2.fd c (some t2) := by rw [hS3def]
  have hS3fdw : S3.fd w = some (Target.pipeW s.nextPipe) := by
    rw [hS3fd, updF_other _ _ _ (Ne.symm hcw)]; exact hS2fdw
  have hS3fda : S3.fd a = some t1 := by
    rw [hS3fd, updF_other _ _ _ (Ne.symm hca)]; exact hS2fda
  have hS3fdc : S3.fd c = some t2 := by rw [hS3fd, updF_same]
  have hd21 : dup2Sys S3 (Int.ofNat w) 1
      = { S3 with fd := updF S3.fd 1 (some (Target.pipeW s.nextPipe)) } :=
    dup2Sys_eq 1 hS3fdw
  set S4 : Sys :=
    { S3 with fd := updF S3.fd 1 (some (Target.pipeW s.nextPipe)) }
    with hS4def
  have hS4fd : S4.fd = updF S3.fd 1 (some (Target.pipeW s.nextPipe)) := by
    rw [hS4def]
  have hS4fdw : S4.fd w = some (Target.pipeW s.nextPipe) := by
    rw [hS4fd, updF_other _ _ _ (Ne.symm h1w)]; exact hS3fdw
  have hd22 : dup2Sys S4 (Int.ofNat w) 2
      = { S4 with fd := updF S4.fd 2 (some (Target.pipeW s.nextPipe)) } :=
    dup2Sys_eq 2 hS4fdw
  set S5 : Sys :=
    { S4 with fd := updF S4.fd 2 (some (Target.pipeW s.nextPipe)) }
    with hS5def
  have hS5fd : S5.fd = updF S4.fd 2 (some (Target.pipeW s.nextPipe)) := by
    rw [hS5def]
  have hS5fdw : S5.fd w = some (Target.pipeW s.nextPipe) := by
    rw [hS5fd, updF_other _ _ _ (Ne.symm h2w)]; exact hS4fdw
  have hclw : closeSys S5 (Int.ofNat w)
      = { S5 with fd := updF S5.fd w none } := closeSys_eq hS5fdw
  set S6 : Sys := { S5 with fd := updF S5.fd w none } with hS6def
  have hS6fd : S6.fd = updF S5.fd w none := by rw [hS6def]
  have hS6fd1 : S6.fd 1 = some (Target.pipeW s.nextPipe) := by
    rw [hS6fd, updF_other _ _ _ h1w, hS5fd,
      updF_other _ _ _ (by omega : (1 : Nat) ≠ 2), hS4fd, updF_same]
  have hS6fd2 : S6.fd 2 = some (Target.pipeW s.nextPipe) := by
    rw [hS6fd, updF_other _ _ _ h2w, hS5fd, updF_same]
  have hwr1 : writeFd S6 1 (main argv).out
      = { S6 with
          pipeData :=
            updF S6.pipeData s.nextPipe
              (S6.pipeData s.nextPipe ++ (main argv).out) } :=
    writeFd_pipe _ hS6fd1
  set S7 : Sys :=
    { S6 with
      pipeData :=
        updF S6.pipeData s.nextPipe
          (S6.pipeData s.nextPipe ++ (main argv).out) } with hS7def
  have hS7fd : S7.fd = S6.fd := by rw [hS7def]
  have hS7fd2 : S7.fd 2 = some (Target.pipeW s.nextPipe) := by
    rw [hS7fd]; exact hS6fd2
  have hwr2 : writeFd S7 2 (main argv).err
      = { S7 with
          pipeData :=
            updF S7.pipeData s.nextPipe
              (S7.pipeData s.nextPipe ++ (main argv).err) } :=
    writeFd_pipe _ hS7fd2
  set S8 : Sys :=
    { S7 with
      pipeData :=
        updF S7.pipeData s.nextPipe
          (S7.pipeData s.nextPipe ++ (main argv).err) } with hS8def
  have hS8fd : S8.fd = S6.fd := by rw [hS8def]
  have hS8fda : S8.fd a = some t1 := by
    rw [hS8fd, hS6fd, updF_other _ _ _ haw, hS5fd,
      updF_other _ _ _ (Ne.symm h2a), hS4fd, updF_other _ _ _ (Ne.symm h1a)]
    exact hS3fda
  have hd23 : dup2Sys S8 (Int.ofNat a) 1
      = { S8 with fd := updF S8.fd 1 (some t1) } := dup2Sys_eq 1 hS8fda
  set S9 : Sys := { S8 with fd := updF S8.fd 1 (some t1) } with hS9def
  have hS9fd : S9.fd = updF S8.fd 1 (some t1) := by rw [hS9def]
  have hS9fdc : S9.fd c = some t2 := by
    rw [hS9fd, updF_other _ _ _ (Ne.symm h1c), hS8fd, hS6fd,
      updF_other _ _ _ hcw, hS5fd, updF_other _ _ _ (Ne.symm h2c), hS4fd,
      updF_other _ _ _ (Ne.symm h1c)]
    exact hS3fdc
  have hd24 : dup2Sys S9 (Int.ofNat c) 2
      = { S9 with fd := updF S9.fd 2 (some t2) } := dup2Sys_eq 2 hS9fdc
  set S10 : Sys := { S9 with fd := updF S9.fd 2 (some t2) } with hS10def
  have hS10fd : S10.fd = updF S9.fd 2 (some t2) := by rw [hS10def]
  have hS10fda : S10.fd a = some t1 := by
    rw [hS10fd, updF_other _ _ _ (Ne.symm h2a), hS9fd,
      updF_other _ _ _ (Ne.symm h1a)]
    exact hS8fda
  have hcla : closeSys S10 (Int.ofNat a)
      = { S10 with fd := updF S10.fd a none } := closeSys_eq hS10fda
  set S11 : Sys := { S10 with fd := updF S10.fd a none } with hS11def
  have hS11fd : S11.fd = updF S10.fd a none := by rw [hS11def]
  have hS11fdc : S11.fd c = some t2 := by
    rw [hS11fd, updF_other _ _ _ hca, hS10fd,
      updF_other _ _ _ (Ne.symm h2c)]
    exact hS9fdc
  have hclb : closeSys S11 (Int.ofNat c)
      = { S11 with fd := updF S11.fd c none } := closeSys_eq hS11fdc
  set S12 : Sys := { S11 with fd := updF S11.fd c none } with hS12def
  have hS12fd : S12.fd = updF S11.fd c none := by rw [hS12def]
  have hS12fdr : S12.fd r = some (Target.pipeR s.nextPipe) := by
    rw [hS12fd, updF_other _ _ _ (Ne.symm hcr), hS11fd,
      updF_other _ _ _ (Ne.symm har), hS10fd,
      updF_other _ _ _ (Ne.symm h2r), hS9fd,
      updF_other _ _ _ (Ne.symm h1r), hS8fd, hS6fd,
      updF_other _ _ _ (Ne.symm hwr), hS5fd,
      updF_other _ _ _ (Ne.symm h2r), hS4fd,
      updF_other _ _ _ (Ne.symm h1r), hS3fd,
      updF_other _ _ _ (Ne.symm hcr), hS2fd, updF_other _ _ _ (Ne.symm har)]
    exact hS1fdr
  simp only [executeWithOutputCore]
  rw [hpipe]
  simp only [hdupa, hdupb, hd21, hd22, hclw, hwr1, hwr2, hd23, hd24, hcla,
    hclb]
  set S13 : Sys :=
    { S12 with
      pipeData :=
        updF S12.pipeData s.nextPipe
          (drain sched (updF b 0 0) 0 (n + 1)
              (S12.pipeData s.nextPipe)).rest } with hS13def
  have hS13fd : S13.fd = S12.fd := by rw [hS13def]
  have hS13fdr : S13.fd r = some (Target.pipeR s.nextPipe) := by
    rw [hS13fd]; exact hS12fdr
  have hclr : closeSys S13 (Int.ofNat r)
      = { S13 with fd := updF S13.fd r none } := closeSys_eq hS13fdr
  rw [hclr]
  funext j
  show updF S13.fd r none j = s.fd j
  by_cases hjr : j = r
  · rw [hjr, updF_same, hrfd]
  rw [updF_other _ _ _ hjr, hS13fd, hS12fd]
  by_cases hjc : j = c
  · rw [hjc, updF_same, hscfd]
  rw [updF_other _ _ _ hjc, hS11fd]
  by_cases hja : j = a
  · rw [hja, updF_same, hsa]
  rw [updF_other _ _ _ hja, hS10fd]
  by_cases hj2 : j = 2
  · rw [hj2, updF_same, h2]
  rw [updF_other _ _ _ hj2, hS9fd]
  by_cases hj1 : j = 1
  · rw [hj1, updF_same, h1]
  rw [updF_other _ _ _ hj1, hS8fd, hS6fd]
  by_cases hjw : j = w
  · rw [hjw, updF_same, hwsfd]
  rw [updF_other _ _ _ hjw, hS5fd, updF_other _ _ _ hj2, hS4fd,
    updF_other _ _ _ hj1, hS3fd, updF_other _ _ _ hjc, hS2fd,
    updF_other _ _ _ hja, hS1fd, updF_other _ _ _ hjw,
    updF_other _ _ _ hjr]

/-! ### Counting installations over operation sequences -/

theorem installs_append (xs ys : List Ev) :
    installs (xs ++ ys) = installs xs + installs ys :=
  List.countP_append _ xs ys

theorem installs_tail (name : String) (t : Tool) (argv : List String) :
    installs [Ev.reset, Ev.setProgName name, Ev.callMain t argv] = 0 := rfl

theorem installs_nil : installs [] = 0 := rfl

theorem installs_lvl (l : Int) : installs [Ev.avSetLevel l] = 0 := rfl

theorem isEntry_setLogger (f : Option Nat) :
    isEntry (Op.setLogger f) = false := rfl

theorem isEntry_setLevel (l : Int) : isEntry (Op.setLevel l) = false := rfl

theorem isEntry_run (t : Tool) (main : List String → MainOut)
    (argv : List String) : isEntry (Op.run t main argv) = true := rfl

theorem isEntry_runCap (t : Tool) (main : List String → MainOut)
    (argv : List String) (b? : Option (Nat → Nat)) (size : Nat)
    (sched : List Nat) : isEntry (Op.runCap t main argv b? size sched)
      = true := rfl

theorem touches_setLogger (f : Option Nat) :
    touches (Op.setLogger f) = false := rfl

theorem touches_setLevel (l : Int) : touches (Op.setLevel l) = true := rfl

theorem touches_run (t : Tool) (main : List String → MainOut)
    (argv : List String) : touches (Op.run t main argv) = true := rfl

theorem touches_runCap (t : Tool) (main : List String → MainOut)
    (argv : List String) (b? : Option (Nat → Nat)) (size : Nat)
    (sched : List Nat) : touches (Op.runCap t main argv b? size sched)
      = true := rfl

theorem levelStep_run (acc : Int) (t : Tool) (main : List String → MainOut)
    (argv : List String) : levelStep acc (Op.run t main argv) = acc := rfl

theorem levelStep_runCap (acc : Int) (t : Tool)
    (main : List String → MainOut) (argv : List String)
    (b? : Option (Nat → Nat)) (size : Nat) (sched : List Nat) :
    levelStep acc (Op.runCap t main argv b? size sched) = acc := rfl

theorem runOps_installs (ops : List Op) : ∀ (g : GState) (s : Sys),
    installs (runOps g s ops).tr
      = if g.g_logging_initialized then 0
        else if ops.any isEntry then 1 else 0 := by
  induction ops with
  | nil =>
    intro g s
    by_cases h : g.g_logging_initialized <;> simp [h, runOps, installs]
  | cons op rest ih =>
    intro g s
    have hsplit : (runOps g s (op :: rest)).tr
        = (runOp g s op).tr
            ++ (runOps (runOp g s op).g (runOp g s op).sys rest).tr := rfl
    rw [hsplit, installs_append]
    cases op with
    | setLogger f =>
      have h1 : (runOp g s (Op.setLogger f)).tr = [] := rfl
      rw [h1, ih]
      have h2 : ((runOp g s (Op.setLogger f)).g).g_logging_initialized
          = g.g_logging_initialized := rfl
      rw [h2]
      by_cases h : g.g_logging_initialized <;>
        simp [h, installs_nil, List.any_cons, isEntry_setLogger]
    | setLevel l =>
      have h1 : (runOp g s (Op.setLevel l)).tr = [Ev.avSetLevel l] := rfl
      rw [h1, ih]
      have h2 : ((runOp g s (Op.setLevel l)).g).g_logging_initialized
          = g.g_logging_initialized := rfl
      rw [h2]
      by_cases h : g.g_logging_initialized <;>
        simp [h, installs_lvl, List.any_cons, isEntry_setLevel]
    | run tt main argv =>
      have h1 : (runOp g s (Op.run tt main argv)).tr
          = (executeCore tt main argv g s).tr := rfl
      rw [h1, (execCore_g_tr tt main argv g s).2, installs_append,
        installs_tail, setup_installs, ih]
      have h2 : ((runOp g s (Op.run tt main argv)).g).g_logging_initialized
          = true := by
        have : (runOp g s (Op.run tt main argv)).g
            = (ffmpeg_setup_logging_if_needed g).1 :=
          (execCore_g_tr tt main argv g s).1
        rw [this, setup_flag]
      rw [h2]
      by_cases h : g.g_logging_initialized <;>
        simp [h, List.any_cons, isEntry_run]
    | runCap tt main argv b? size sched =>
      have h1 : (runOp g s (Op.runCap tt main argv b? size sched)).tr
          = (executeWithOutputCore tt main argv g s b? size sched).tr := rfl
      rw [h1, (capCore_g_tr tt main argv g s b? size sched).2, installs_append,
        installs_tail, setup_installs, ih]
      have h2 : ((runOp g s (Op.runCap tt main argv b? size sched)).g
          ).g_logging_initialized = true := by
        have : (runOp g s (Op.runCap tt main argv b? size sched)).g
            = (ffmpeg_setup_logging_if_needed g).1 :=
          (capCore_g_tr tt main argv g s b? size sched).1
        rw [this, setup_flag]
      rw [h2]
      by_cases h : g.g_logging_initialized <;>
        simp [h, List.any_cons, isEntry_runCap]

/-! ### Level tracking over operation sequences -/

theorem setup_g_log_level (st : GState) :
    ((ffmpeg_setup_logging_if_needed st).1).g_log_level = st.g_log_level := by
  by_cases h : st.g_logging_initialized
  · rw [setup_of_initialized h]
  · rw [setup_of_uninitialized (by simpa using h)]

theorem runOps_level (ops : List Op) : ∀ (g : GState) (s : Sys) (acc : Int)
    (touched : Bool), g.g_log_level = acc →
    (touched = true → g.av_level = some acc) →
    (touched = false → g.av_level = none ∧ g.g_logging_initialized = false) →
    ((runOps g s ops).g.g_log_level = ops.foldl levelStep acc
      ∧ ((touched || ops.any touches) = true →
          (runOps g s ops).g.av_level = some (ops.foldl levelStep acc))
      ∧ ((touched || ops.any touches) = false →
          (runOps g s ops).g.av_level = none
            ∧ (runOps g s ops).g.g_logging_initialized = false)) := by
  induction ops with
  | nil =>
    intro g s acc touched h1 h2 h3
    simp only [runOps, List.foldl, List.any_nil, Bool.or_false]
    exact ⟨h1, h2, h3⟩
  | cons op rest ih =>
    intro g s acc touched h1 h2 h3
    cases touched with
    | true =>
      have h2' : g.av_level = some acc := h2 rfl
      cases op with
      | setLogger f =>
        exact ih (ffmpeg_set_swift_logger f g) s acc true h1 (fun _ => h2')
          (fun h => nomatch h)
      | setLevel l =>
        exact ih (ffmpeg_set_log_level l g).1 s l true rfl (fun _ => rfl)
          (fun h => nomatch h)
      | run tt main argv =>
        have hav : ((ffmpeg_setup_logging_if_needed g).1).av_level
            = some acc := by
          by_cases hf : g.g_logging_initialized
          · rw [setup_of_initialized hf]; exact h2'
          · rw [setup_of_uninitialized (by simpa using hf)]
            show some g.g_log_level = some acc
            rw [h1]
        have hre : (runOps g s (Op.run tt main argv :: rest)).g
            = (runOps (runOp g s (Op.run tt main argv)).g
                (runOp g s (Op.run tt main argv)).sys rest).g := rfl
        have hg2 : (runOp g s (Op.run tt main argv)).g
            = (ffmpeg_setup_logging_if_needed g).1 :=
          (execCore_g_tr tt main argv g s).1
        rw [hre, hg2]
        have hcall := ih (ffmpeg_setup_logging_if_needed g).1
          ((runOp g s (Op.run tt main argv)).sys) acc true
          ((setup_g_log_level g).trans h1) (fun _ => hav) (fun h => nomatch h)
        simpa [List.any_cons, List.foldl_cons, touches_run, levelStep_run]
          using hcall
      | runCap tt main argv b? size sched =>
        have hav : ((ffmpeg_setup_logging_if_needed g).1).av_level
            = some acc := by
          by_cases hf : g.g_logging_initialized
          · rw [setup_of_initialized hf]; exact h2'
          · rw [setup_of_uninitialized (by simpa using hf)]
            show some g.g_log_level = some acc
            rw [h1]
        have hre : (runOps g s (Op.runCap tt main argv b? size sched :: rest)).g
            = (runOps (runOp g s (Op.runCap tt main argv b? size sched)).g
                (runOp g s (Op.runCap tt main argv b? size sched)).sys rest).g :=
          rfl
        have hg2 : (runOp g s (Op.runCap tt main argv b? size sched)).g
            = (ffmpeg_setup_logging_if_needed g).1 :=
          (capCore_g_tr tt main argv g s b? size sched).1
        rw [hre, hg2]
        have hcall := ih (ffmpeg_setup_logging_if_needed g).1
          ((runOp g s (Op.runCap tt main argv b? size sched)).sys) acc true
          ((setup_g_log_level g).trans h1) (fun _ => hav) (fun h => nomatch h)
        simpa [List.any_cons, List.foldl_cons, touches_runCap,
          levelStep_runCap] using hcall
    | false =>
      obtain ⟨hav0, hflag0⟩ := h3 rfl
      cases op with
      | setLogger f =>
        exact ih (ffmpeg_set_swift_logger f g) s acc false h1
          (fun h => nomatch h) (fun _ => ⟨hav0, hflag0⟩)
      | setLevel l =>
        exact ih (ffmpeg_set_log_level l g).1 s l true rfl (fun _ => rfl)
          (fun h => nomatch h)
      | run tt main argv =>
        have hav : ((ffmpeg_setup_logging_if_needed g).1).av_level
            = some acc := by
          rw [setup_of_uninitialized hflag0]
          show some g.g_log_level = some acc
          rw [h1]
        have hre : (runOps g s (Op.run tt main argv :: rest)).g
            = (runOps (runOp g s (Op.run tt main argv)).g
                (runOp g s (Op.run tt main argv)).sys rest).g := rfl
        have hg2 : (runOp g s (Op.run tt main argv)).g
            = (ffmpeg_setup_logging_if_needed g).1 :=
          (execCore_g_tr tt main argv g s).1
        rw [hre, hg2]
        have hcall := ih (ffmpeg_setup_logging_if_needed g).1
          ((runOp g s (Op.run tt main argv)).sys) acc true
          ((setup_g_log_level g).trans h1) (fun _ => hav) (fun h => nomatch h)
        simpa [List.any_cons, List.foldl_cons, touches_run, levelStep_run]
          using hcall
      | runCap tt main argv b? size sched =>
        have hav : ((ffmpeg_setup_logging_if_needed g).1).av_level
            = some acc := by
          rw [setup_of_uninitialized hflag0]
          show some g.g_log_level = some acc
          rw [h1]
        have hre : (runOps g s (Op.runCap tt main argv b? size sched :: rest)).g
            = (runOps (runOp g s (Op.runCap tt main argv b? size sched)).g
                (runOp g s (Op.runCap tt main argv b? size sched)).sys rest).g :=
          rfl
        have hg2 : (runOp g s (Op.runCap tt main argv b? size sched)).g
            = (ffmpeg_setup_logging_if_needed g).1 :=
          (capCore_g_tr tt main argv g s b? size sched).1
        rw [hre, hg2]
        have hcall := ih (ffmpeg_setup_logging_if_needed g).1
          ((runOp g s (Op.runCap tt main argv b? size sched)).sys) acc true
          ((setup_g_log_level g).trans h1) (fun _ => hav) (fun h => nomatch h)
        simpa [List.any_cons, List.foldl_cons, touches_runCap,
          levelStep_runCap] using hcall

/-! ### Capture-path fallback and buffer lemmas -/

theorem capCore_pipefail (t : Tool) (main : List String → MainOut)
    (argv : List String) (st : GState) (s : Sys) (b : Nat → Nat) (n : Nat)
    (sched : List Nat) (hp : pipeSys s = none) :
    executeWithOutputCore t main argv st s (some b) (n + 1) sched
      = withBuf (executeCore t main argv st s) (some (updF b 0 0)) := by
  simp only [executeWithOutputCore]
  rw [hp]

theorem capCore_degraded (t : Tool) (main : List String → MainOut)
    (argv : List String) (st : GState) (s : Sys) (buf? : Option (Nat → Nat))
    (size : Nat) (sched : List Nat) (h : buf? = none ∨ size = 0) :
    executeWithOutputCore t main argv st s buf? size sched
      = withBuf (executeCore t main argv st s) buf? := by
  rcases h with h | h
  · subst h; rfl
  · subst h
    cases buf? with
    | none => rfl
    | some b => rfl

theorem capCore_buf_shape (t : Tool) (main : List String → MainOut)
    (argv : List String) (st : GState) (s : Sys) (b : Nat → Nat) (n : Nat)
    (sched : List Nat) :
    (∃ avail,
      (executeWithOutputCore t main argv st s (some b) (n + 1) sched).buf
        = some (updF (drain sched (updF b 0 0) 0 (n + 1) avail).buf
            (drain sched (updF b 0 0) 0 (n + 1) avail).total 0))
    ∨ (executeWithOutputCore t main argv st s (some b) (n + 1) sched).buf
        = some (updF b 0 0) := by
  simp only [executeWithOutputCore]
  rcases hp : pipeSys s with _ | ⟨s1, rfd, wfd, pid⟩
  · exact Or.inr rfl
  · exact Or.inl ⟨_, rfl⟩

theorem capCore_buffer (t : Tool) (main : List String → MainOut)
    (argv : List String) (st : GState) (s : Sys) (b : Nat → Nat) (n : Nat)
    (sched : List Nat) :
    ∃ total b2,
      (executeWithOutputCore t main argv st s (some b) (n + 1) sched).buf
          = some b2
        ∧ total ≤ n ∧ b2 total = 0 ∧ ∀ i, total < i → b2 i = b i := by
  rcases capCore_buf_shape t main argv st s b n sched with ⟨avail, he⟩ | he
  · obtain ⟨hd1, hd2, hd3⟩ :=
      drain_spec sched (updF b 0 0) 0 (n + 1) avail (by omega)
    refine ⟨(drain sched (updF b 0 0) 0 (n + 1) avail).total, _, he,
      by omega, updF_same _ _ _, ?_⟩
    intro i hi
    rw [updF_other _ _ _ (by omega : i
        ≠ (drain sched (updF b 0 0) 0 (n + 1) avail).total),
      hd3 i (by omega), updF_other _ _ _ (by omega : i ≠ 0)]
  · exact ⟨0, updF b 0 0, he, Nat.zero_le n, updF_same _ _ _,
      fun i hi => updF_other _ _ _ (by omega)⟩

/-! ### Log-rendering lemmas -/

theorem take_getD (l : List Nat) (k j : Nat) (h : j < k) :
    (l.take k).getD j 0 = l.getD j 0 := by
  rw [List.getD_eq_getElem?_getD, List.getD_eq_getElem?_getD,
    List.getElem?_take, if_pos h]

theorem vsnprintf_1024 (sb : Nat → Nat) (r : List Nat) :
    vsnprintf sb 1024 r
      = updF (writeBytes sb 0 (r.take 1023)) (min r.length 1023) 0 := rfl

/-! ### Concrete instances used by witnesses and counterexamples -/

/-- A demonstration entry-point oracle: exit code `1`, two bytes on stdout,
one on stderr. -/
def mainDemo : List String → MainOut := fun _ => ⟨1, [72, 105], [33]⟩

/-- A demonstration caller buffer with arbitrary initial contents. -/
def bufDemo : Nat → Nat := fun _ => 55

/-- Descriptors 0-2 open on real targets, limit 8: five free slots, so the
pipe and both duplications succeed. -/
def sysOpen : Sys :=
  ⟨fun i => if i < 3 then some (Target.real i) else none, 8,
   fun _ => [], fun _ => [], 0⟩

/-- Descriptors 0-2 open, limit 5: exactly two free slots, so `pipe` succeeds
but both `dup` calls fail. -/
def sysTight : Sys :=
  ⟨fun i => if i < 3 then some (Target.real i) else none, 5,
   fun _ => [], fun _ => [], 0⟩

/-- Descriptors 0-2 open, limit 3: no free slot, so `pipe` itself fails. -/
def sysFull : Sys :=
  ⟨fun i => if i < 3 then some (Target.real i) else none, 3,
   fun _ => [], fun _ => [], 0⟩

/-! ### Claim theorems -/

/-- C1 (counterexample): the claim fails as stated.  At `sysTight` the pipe
is created (the claim's precondition holds) but the unchecked `dup` calls
return `-1`, the restoring `dup2(-1, ...)` calls fail, and the function
returns with fd 1 still bound to the pipe's write end rather than its
pre-call target. -/
theorem c1_restoration_counterexample :
    (pipeSys sysTight).isSome = true
    ∧ sysTight.fd 1 = some (Target.real 1)
    ∧ (ffmpeg_execute_with_output mainDemo [] ginit sysTight (some bufDemo) 4
        [4]).sys.fd 1 = some (Target.pipeW 0)
    ∧ (ffmpeg_execute_with_output mainDemo [] ginit sysTight (some bufDemo) 4
        [4]).sys.fd 1 ≠ sysTight.fd 1 := by decide

/-- C1 (amended): for every captured invocation in which pipe creation
succeeds and the two descriptor duplications also succeed (at least four
free descriptor slots), standard output and standard error are restored to
their pre-call targets and every descriptor the call created is released —
the final descriptor table equals the pre-call table — on every return path,
whatever exit code and output the wrapped entry point produces. -/
theorem c1_restoration (main : List String → MainOut) (argv : List String)
    (st : GState) (s : Sys) (b : Nat → Nat) (size : Nat) (sched : List Nat)
    (t1 t2 : Target) (h1 : s.fd 1 = some t1) (h2 : s.fd 2 = some t2)
    (hfree : 4 ≤ freeCnt s.fd s.limit) (hsz : 1 ≤ size) :
    (ffmpeg_execute_with_output main argv st s (some b) size sched).sys.fd
        = s.fd
    ∧ (ffprobe_execute_with_output main argv st s (some b) size sched).sys.fd
        = s.fd := by
  obtain ⟨n, rfl⟩ : ∃ n, size = n + 1 := ⟨size - 1, by omega⟩
  exact ⟨capCore_restore Tool.ffmpeg main argv st s b n sched h1 h2 hfree,
    capCore_restore Tool.ffprobe main argv st s b n sched h1 h2 hfree⟩

/-- C1 witness: the amended restoration theorem applied at a concrete state
with five free descriptors. -/
theorem c1_restoration_witness :
    sysOpen.fd 1 = some (Target.real 1)
    ∧ sysOpen.fd 2 = some (Target.real 2)
    ∧ 4 ≤ freeCnt sysOpen.fd sysOpen.limit
    ∧ (1 : Nat) ≤ 4
    ∧ ((ffmpeg_execute_with_output mainDemo [] ginit sysOpen (some bufDemo) 4
          [4]).sys.fd = sysOpen.fd
       ∧ (ffprobe_execute_with_output mainDemo [] ginit sysOpen (some bufDemo)
          4 [4]).sys.fd = sysOpen.fd) :=
  ⟨by decide, by decide, by decide, by decide,
   c1_restoration mainDemo [] ginit sysOpen bufDemo 4 [4] (Target.real 1)
     (Target.real 2) (by decide) (by decide) (by decide) (by decide)⟩

/-- C2: for every captured invocation with a non-null buffer of capacity
`N ≥ 1`, at most `N - 1` bytes are drained into the buffer, no index at or
beyond `N` is written (indices above the drained range keep their prior
contents), and on return the buffer holds a terminating null byte at an
index strictly below `N` — whatever the wrapped tool produced and however
the OS schedules the reads. -/
theorem c2_buffer_bounds (main : List String → MainOut) (argv : List String)
    (st : GState) (s : Sys) (b : Nat → Nat) (size : Nat) (sched : List Nat)
    (hsz : 1 ≤ size) :
    (∃ total b2,
      (ffmpeg_execute_with_output main argv st s (some b) size sched).buf
          = some b2
        ∧ total + 1 ≤ size ∧ b2 total = 0
        ∧ (∀ i, total < i → b2 i = b i)
        ∧ (∀ i, size ≤ i → b2 i = b i))
    ∧ (∃ total b2,
      (ffprobe_execute_with_output main argv st s (some b) size sched).buf
          = some b2
        ∧ total + 1 ≤ size ∧ b2 total = 0
        ∧ (∀ i, total < i → b2 i = b i)
        ∧ (∀ i, size ≤ i → b2 i = b i)) := by
  obtain ⟨n, rfl⟩ : ∃ n, size = n + 1 := ⟨size - 1, by omega⟩
  constructor
  · obtain ⟨total, b2, he, hle, hz, habove⟩ :=
      capCore_buffer Tool.ffmpeg main argv st s b n sched
    exact ⟨total, b2, he, by omega, hz, habove,
      fun i hi => habove i (by omega)⟩
  · obtain ⟨total, b2, he, hle, hz, habove⟩ :=
      capCore_buffer Tool.ffprobe main argv st s b n sched
    exact ⟨total, b2, he, by omega, hz, habove,
      fun i hi => habove i (by omega)⟩

/-- C2 witness: the buffer-bounds theorem applied at a concrete captured
invocation with capacity 4. -/
theorem c2_buffer_bounds_witness :
    (1 : Nat) ≤ 4
    ∧ ((∃ total b2,
        (ffmpeg_execute_with_output mainDemo [] ginit sysOpen (some bufDemo) 4
            [4]).buf = some b2
          ∧ total + 1 ≤ 4 ∧ b2 total = 0
          ∧ (∀ i, total < i → b2 i = bufDemo i)
          ∧ (∀ i, 4 ≤ i → b2 i = bufDemo i))
       ∧ (∃ total b2,
        (ffprobe_execute_with_output mainDemo [] ginit sysOpen (some bufDemo)
            4 [4]).buf = some b2
          ∧ total + 1 ≤ 4 ∧ b2 total = 0
          ∧ (∀ i, total < i → b2 i = bufDemo i)
          ∧ (∀ i, 4 ≤ i → b2 i = bufDemo i))) :=
  ⟨by decide, c2_buffer_bounds mainDemo [] ginit sysOpen bufDemo 4 [4]
    (by decide)⟩

/-- C3 (counterexample): the claim fails as stated.  At `sysTight` the
descriptors cannot be duplicated (`dup` returns `-1`) — a redirection-setup
failure in the claim's sense — yet the operation does not fall back to the
uncaptured invocation: it proceeds with redirection, and returns with fd 1
bound to the pipe, unlike the uncaptured call which leaves fd 1 on its real
target. -/
theorem c3_fallback_counterexample :
    (pipeSys sysTight).isSome = true
    ∧ Option.map (fun q => (dupSys q.1 1).1) (pipeSys sysTight) = some (-1)
    ∧ (ffmpeg_execute_with_output mainDemo [] ginit sysTight (some bufDemo) 4
        [4]).sys.fd 1 = some (Target.pipeW 0)
    ∧ (withBuf (ffmpeg_execute mainDemo [] ginit sysTight)
        (some (updF bufDemo 0 0))).sys.fd 1 = some (Target.real 1) := by
  decide

/-- C3 (amended): only a pipe-creation failure triggers the recovery: when
the pipe cannot be created, the operation performs the ordinary uncaptured
invocation and returns its exit code, with no distinct error surfaced (the
buffer's first byte has already been set to null).  Descriptor-duplication
failure is not detected and does not trigger the fallback. -/
theorem c3_pipe_fallback (main : List String → MainOut) (argv : List String)
    (st : GState) (s : Sys) (b : Nat → Nat) (size : Nat) (sched : List Nat)
    (hp : pipeSys s = none) (hsz : 1 ≤ size) :
    ffmpeg_execute_with_output main argv st s (some b) size sched
        = withBuf (ffmpeg_execute main argv st s) (some (updF b 0 0))
    ∧ ffprobe_execute_with_output main argv st s (some b) size sched
        = withBuf (ffprobe_execute main argv st s) (some (updF b 0 0)) := by
  obtain ⟨n, rfl⟩ : ∃ n, size = n + 1 := ⟨size - 1, by omega⟩
  exact ⟨capCore_pipefail Tool.ffmpeg main argv st s b n sched hp,
    capCore_pipefail Tool.ffprobe main argv st s b n sched hp⟩

/-- C3 witness: the pipe-failure fallback theorem applied at a state with an
exhausted descriptor table. -/
theorem c3_pipe_fallback_witness :
    pipeSys sysFull = none
    ∧ (1 : Nat) ≤ 4
    ∧ (ffmpeg_execute_with_output mainDemo [] ginit sysFull (some bufDemo) 4
          [] = withBuf (ffmpeg_execute mainDemo [] ginit sysFull)
            (some (updF bufDemo 0 0))
       ∧ ffprobe_execute_with_output mainDemo [] ginit sysFull (some bufDemo)
          4 [] = withBuf (ffprobe_execute mainDemo [] ginit sysFull)
            (some (updF bufDemo 0 0))) :=
  ⟨rfl, by decide,
   c3_pipe_fallback mainDemo [] ginit sysFull bufDemo 4 [] rfl (by decide)⟩

/-- C4: a captured operation called with a null buffer or zero capacity
behaves exactly as the corresponding uncaptured operation: same exit code,
same globals, same OS state and trace (no redirection), and the caller's
buffer argument is returned untouched. -/
theorem c4_degraded_call (main : List String → MainOut) (argv : List String)
    (st : GState) (s : Sys) (buf? : Option (Nat → Nat)) (size : Nat)
    (sched : List Nat) (h : buf? = none ∨ size = 0) :
    ffmpeg_execute_with_output main argv st s buf? size sched
        = withBuf (ffmpeg_execute main argv st s) buf?
    ∧ ffprobe_execute_with_output main argv st s buf? size sched
        = withBuf (ffprobe_execute main argv st s) buf? :=
  ⟨capCore_degraded Tool.ffmpeg main argv st s buf? size sched h,
   capCore_degraded Tool.ffprobe main argv st s buf? size sched h⟩

/-- C4 witness: the degraded-call theorem applied with a null buffer. -/
theorem c4_degraded_call_witness :
    ((none : Option (Nat → Nat)) = none ∨ (7 : Nat) = 0)
    ∧ (ffmpeg_execute_with_output mainDemo [] ginit sysOpen none 7 []
          = withBuf (ffmpeg_execute mainDemo [] ginit sysOpen) none
       ∧ ffprobe_execute_with_output mainDemo [] ginit sysOpen none 7 []
          = withBuf (ffprobe_execute mainDemo [] ginit sysOpen) none) :=
  ⟨Or.inl rfl,
   c4_degraded_call mainDemo [] ginit sysOpen none 7 [] (Or.inl rfl)⟩

/-- C5: the one-time logging setup is idempotent.  Over any sequence of
public operations from the process-start state, the log-bridge callback is
installed into the wrapped library exactly once when at least one entry
operation runs (and never otherwise); the first uninitialized call performs
the installation of the callback and the stored level, and any call on an
already-initialized state is a no-op. -/
theorem c5_setup_once :
    (∀ (ops : List Op) (s : Sys),
        installs (runOps ginit s ops).tr = if ops.any isEntry then 1 else 0)
    ∧ (∀ st : GState, st.g_logging_initialized = false →
        ffmpeg_setup_logging_if_needed st
          = ({ st with g_logging_initialized := true, av_cb_installed := true,
                       av_level := some st.g_log_level },
             [Ev.avSetCallback, Ev.avSetLevel st.g_log_level]))
    ∧ (∀ st : GState, st.g_logging_initialized = true →
        ffmpeg_setup_logging_if_needed st = (st, [])) := by
  refine ⟨fun ops s => ?_, fun st h => setup_of_uninitialized h,
    fun st h => setup_of_initialized h⟩
  rw [runOps_installs]
  simp [ginit]

/-- C5 witness: the setup applied at the start state installs once; applied
at an initialized state it is a no-op. -/
theorem c5_setup_once_witness :
    ginit.g_logging_initialized = false
    ∧ ffmpeg_setup_logging_if_needed ginit
        = ({ ginit with g_logging_initialized := true,
                        av_cb_installed := true,
                        av_level := some ginit.g_log_level },
           [Ev.avSetCallback, Ev.avSetLevel ginit.g_log_level])
    ∧ ({ ginit with g_logging_initialized := true }
        : GState).g_logging_initialized = true
    ∧ ffmpeg_setup_logging_if_needed { ginit with g_logging_initialized := true }
        = ({ ginit with g_logging_initialized := true }, []) :=
  ⟨rfl, c5_setup_once.2.1 ginit rfl, rfl, c5_setup_once.2.2 _ rfl⟩

/-- C6: in every public entry operation, captured or not, the wrapped
library's global-state-reset hook runs before the entry point is called —
with only the program-name assignment between them — and never after it:
each trace is a setup prefix without reset or entry-point events, followed
exactly by reset, program name, entry-point call. -/
theorem c6_reset_before_entry (main : List String → MainOut)
    (argv : List String) (st : GState) (s : Sys) (buf? : Option (Nat → Nat))
    (size : Nat) (sched : List Nat) :
    (∃ pre, (ffmpeg_execute main argv st s).tr
        = pre ++ [Ev.reset, Ev.setProgName "ffmpeg",
            Ev.callMain Tool.ffmpeg argv]
      ∧ Ev.reset ∉ pre ∧ Ev.callMain Tool.ffmpeg argv ∉ pre)
    ∧ (∃ pre, (ffprobe_execute main argv st s).tr
        = pre ++ [Ev.reset, Ev.setProgName "ffprobe",
            Ev.callMain Tool.ffprobe argv]
      ∧ Ev.reset ∉ pre ∧ Ev.callMain Tool.ffprobe argv ∉ pre)
    ∧ (∃ pre, (ffmpeg_execute_with_output main argv st s buf? size sched).tr
        = pre ++ [Ev.reset, Ev.setProgName "ffmpeg",
            Ev.callMain Tool.ffmpeg argv]
      ∧ Ev.reset ∉ pre ∧ Ev.callMain Tool.ffmpeg argv ∉ pre)
    ∧ (∃ pre, (ffprobe_execute_with_output main argv st s buf? size sched).tr
        = pre ++ [Ev.reset, Ev.setProgName "ffprobe",
            Ev.callMain Tool.ffprobe argv]
      ∧ Ev.reset ∉ pre ∧ Ev.callMain Tool.ffprobe argv ∉ pre) :=
  ⟨⟨(ffmpeg_setup_logging_if_needed st).2,
    (execCore_g_tr Tool.ffmpeg main argv st s).2,
    setup_tr_no_reset st, setup_tr_no_callMain st Tool.ffmpeg argv⟩,
   ⟨(ffmpeg_setup_logging_if_needed st).2,
    (execCore_g_tr Tool.ffprobe main argv st s).2,
    setup_tr_no_reset st, setup_tr_no_callMain st Tool.ffprobe argv⟩,
   ⟨(ffmpeg_setup_logging_if_needed st).2,
    (capCore_g_tr Tool.ffmpeg main argv st s buf? size sched).2,
    setup_tr_no_reset st, setup_tr_no_callMain st Tool.ffmpeg argv⟩,
   ⟨(ffmpeg_setup_logging_if_needed st).2,
    (capCore_g_tr Tool.ffprobe main argv st s buf? size sched).2,
    setup_tr_no_reset st, setup_tr_no_callMain st Tool.ffprobe argv⟩⟩

/-- C7: when the internal log callback fires with no listener registered —
including right after registering null — the record is dropped: no listener
invocation is produced, on any record. -/
theorem c7_listener_drop :
    (∀ (sb : Nat → Nat) (st : GState) (level : Int) (rendered : List Nat),
        st.g_swift_log_func = none →
        ffmpeg_log_callback sb st level rendered = none)
    ∧ (∀ (sb : Nat → Nat) (st : GState) (level : Int) (rendered : List Nat),
        ffmpeg_log_callback sb (ffmpeg_set_swift_logger none st) level
          rendered = none) := by
  constructor
  · intro sb st level rendered h
    simp only [ffmpeg_log_callback, h]
  · intro sb st level rendered
    rfl

/-- C7 witness: the drop theorem applied at the start state, which has no
listener. -/
theorem c7_listener_drop_witness :
    ffmpeg_log_callback (fun _ => 0) ginit 16 [] = none :=
  c7_listener_drop.1 (fun _ => 0) ginit 16 [] rfl

/-- C8: for every record delivered while a listener is registered, the
callback invokes the listener exactly once with the severity level and the
1024-byte buffer, whose first `min (length, 1023)` bytes are the rendered
text, with a null terminator right after them and a forced null at index
1023 — so the text is truncated, never overflowing the buffer. -/
theorem c8_log_render (sb : Nat → Nat) (st : GState) (f : Nat) (level : Int)
    (rendered : List Nat) (h : st.g_swift_log_func = some f) :
    ∃ buffer,
      ffmpeg_log_callback sb st level rendered = some (f, level, buffer)
      ∧ buffer (min rendered.length 1023) = 0
      ∧ (∀ j, j < min rendered.length 1023 → buffer j = rendered.getD j 0)
      ∧ buffer 1023 = 0 := by
  refine ⟨updF (vsnprintf sb 1024 rendered) 1023 0, ?_, ?_, ?_,
    updF_same _ _ _⟩
  · simp only [ffmpeg_log_callback, h]
  · by_cases hm : min rendered.length 1023 = 1023
    · rw [hm, updF_same]
    · rw [updF_other _ _ _ hm, vsnprintf_1024, updF_same]
  · intro j hj
    have hj1 : j ≠ 1023 := by omega
    have hj2 : j ≠ min rendered.length 1023 := by omega
    rw [updF_other _ _ _ hj1, vsnprintf_1024, updF_other _ _ _ hj2]
    have hlt : j < (rendered.take 1023).length := by
      rw [List.length_take]; omega
    have hw := writeBytes_at (rendered.take 1023) sb 0 j hlt
    rw [Nat.zero_add] at hw
    rw [hw]
    exact take_getD rendered 1023 j (by omega)

/-- C8 witness: the render theorem applied with a registered listener and a
two-byte record. -/
theorem c8_log_render_witness :
    ({ ginit with g_swift_log_func := some 7 } : GState).g_swift_log_func
        = some 7
    ∧ ∃ buffer,
        ffmpeg_log_callback (fun _ => 9)
            { ginit with g_swift_log_func := some 7 } 16 [65, 66]
          = some (7, 16, buffer)
        ∧ buffer (min ([65, 66] : List Nat).length 1023) = 0
        ∧ (∀ j, j < min ([65, 66] : List Nat).length 1023 →
            buffer j = ([65, 66] : List Nat).getD j 0)
        ∧ buffer 1023 = 0 :=
  ⟨rfl, c8_log_render (fun _ => 9) { ginit with g_swift_log_func := some 7 }
    7 16 [65, 66] rfl⟩

/-- C9: every public entry operation returns exactly the integer the wrapped
entry point returned, with no translation of nonzero status codes. -/
theorem c9_exit_passthrough (main : List String → MainOut)
    (argv : List String) (st : GState) (s : Sys) (buf? : Option (Nat → Nat))
    (size : Nat) (sched : List Nat) :
    (ffmpeg_execute main argv st s).code = (main argv).exit
    ∧ (ffprobe_execute main argv st s).code = (main argv).exit
    ∧ (ffmpeg_execute_with_output main argv st s buf? size sched).code
        = (main argv).exit
    ∧ (ffprobe_execute_with_output main argv st s buf? size sched).code
        = (main argv).exit :=
  ⟨rfl, rfl, capCore_code Tool.ffmpeg main argv st s buf? size sched,
   capCore_code Tool.ffprobe main argv st s buf? size sched⟩

/-- C10 (counterexample): the claim fails as stated.  After the empty
sequence of public operations the wrapped library's level filter has not
been touched by this layer at all (`none` in the model), so it does not
equal the built-in default 32 that the claim asserts. -/
theorem c10_level_counterexample :
    (runOps ginit sysOpen []).g.av_level = none
    ∧ lastLevel [] = 32
    ∧ (runOps ginit sysOpen []).g.av_level ≠ some (lastLevel []) := by
  decide

/-- C10 (amended): after any sequence of public operations containing at
least one entry-point invocation or level-set call, the stored level equals
the level most recently passed to the level-setting operation (default 32),
and the wrapped library's filter has been set to exactly that level — a
level set before first initialization is applied at first initialization
via the stored value, and a level set afterwards is forwarded immediately.
Before any such operation the library's filter is simply untouched. -/
theorem c10_level_tracking (ops : List Op) (s : Sys)
    (h : ops.any touches = true) :
    (runOps ginit s ops).g.g_log_level = lastLevel ops
    ∧ (runOps ginit s ops).g.av_level = some (lastLevel ops) := by
  have hh := runOps_level ops ginit s 32 false rfl (fun hx => nomatch hx)
    (fun _ => ⟨rfl, rfl⟩)
  exact ⟨hh.1, hh.2.1 (by simp [h])⟩

/-- C10 witness: the level-tracking theorem applied to the singleton
sequence that sets level 5. -/
theorem c10_level_tracking_witness :
    ([Op.setLevel 5] : List Op).any touches = true
    ∧ ((runOps ginit sysOpen [Op.setLevel 5]).g.g_log_level
          = lastLevel [Op.setLevel 5]
       ∧ (runOps ginit sysOpen [Op.setLevel 5]).g.av_level
          = some (lastLevel [Op.setLevel 5])) :=
  ⟨rfl, c10_level_tracking [Op.setLevel 5] sysOpen rfl⟩

end CFFmpegCLI
